import Mathlib

/-!
Shallow embedding of the order-management domain model from
`aggregate-root_entity_value-object.ipynb` (classes `Product`, `OrderLine`,
`Order` built on pydantic v1 `BaseModel`), together with proofs settling the
specification claims about it.

Python integers are unbounded, so every numeric field is embedded as `Int`.
Fallible construction (pydantic validators raising `ValidationError`) is
embedded as `Except`: pydantic v1 collects the messages of all failing field
validators into one `ValidationError`, so constructors return
`Except (List String) _` carrying the list of validator messages.
-/

/-- Entity `Product` of the source: `product_number : int`, `price : int`.
Field validation lives in `Product.mk?` below; a `Product` value here is a
possibly-unvalidated record, mirroring that Python lets fields be reassigned
to arbitrary ints after construction (pydantic v1 does not validate on
assignment by default). -/
structure Product where
  product_number : Int
  price : Int
deriving DecidableEq

/-- Value object `OrderLine` of the source: a `Product` reference plus
`product_count : int`. -/
structure OrderLine where
  product : Product
  product_count : Int
deriving DecidableEq

/-- Aggregate root `Order` of the source: `order_lines: List[OrderLine] = []`,
`overall_price: int = 0`. pydantic deep-copies field defaults per instance, so
every new `Order` gets its own fresh empty list. -/
structure Order where
  order_lines : List OrderLine
  overall_price : Int
deriving DecidableEq

/-- The source's `Order()` with its defaults: empty lines, zero price. -/
def Order.empty : Order :=
  { order_lines := [], overall_price := 0 }

/-- Validator `Product.validate_product_number`: rejects values outside
[0, 999999] with the source's message string. -/
def Product.validate_product_number (value : Int) : Except String Int :=
  if value < 0 ∨ value > 999999 then
    .error ("product_number is " ++ toString value ++
      " but must be between 0 and 999999.")
  else
    .ok value

/-- Validator `Product.validate_price`: rejects values below 1 with the
source's message string. -/
def Product.validate_price (value : Int) : Except String Int :=
  if value < 1 then
    .error ("price is " ++ toString value ++ " but must be at least 1.")
  else
    .ok value

/-- Validator `OrderLine.validate_product_count`: rejects values `<= 0` with
the source's message string. -/
def OrderLine.validate_product_count (value : Int) : Except String Int :=
  if value ≤ 0 then
    .error ("product_count is " ++ toString value ++
      " but must be greater than 0.")
  else
    .ok value

/-- Messages contributed by one field validator to a pydantic v1
`ValidationError`: none on success, its message on failure. -/
def errorsOf : Except String Int → List String
  | .ok _ => []
  | .error m => [m]

/-- Construction `Product(product_number=…, price=…)`: pydantic v1 runs both
field validators (in field declaration order) and collects every failure into
one `ValidationError`; the instance exists only if both fields validate. -/
def Product.mk? (product_number price : Int) : Except (List String) Product :=
  match Product.validate_product_number product_number,
      Product.validate_price price with
  | .ok pn, .ok p => .ok { product_number := pn, price := p }
  | vpn, vp => .error (errorsOf vpn ++ errorsOf vp)

/-- Construction `OrderLine(product=…, product_count=…)`: the single
`product_count` validator (declared with `always=True`) must pass. -/
def OrderLine.mk? (product : Product) (product_count : Int) :
    Except (List String) OrderLine :=
  match OrderLine.validate_product_count product_count with
  | .ok c => .ok { product := product, product_count := c }
  | .error m => .error [m]

/-- First order line whose product carries the given `product_number`; the
linear scan at the top of both `add_order_line` and `remove_order_line`. -/
def findLine? (lines : List OrderLine) (product_number : Int) :
    Option OrderLine :=
  lines.find? (fun l => l.product.product_number == product_number)

/-- Removal of the first order line whose product carries the given
`product_number`. The source performs `self.order_lines.remove(existing)`,
which removes the first element structurally equal (pydantic field equality)
to the scan's first `product_number` match; every earlier element has a
different `product_number`, hence a structurally different product, so the
element removed is exactly the scan's first match — this function. -/
def eraseLine : List OrderLine → Int → List OrderLine
  | [], _ => []
  | l :: ls, n =>
    if l.product.product_number == n then ls else l :: eraseLine ls n

/-- Method `Order.add_order_line`. On a `product_number` match it rebuilds a
`Product` and a merged `OrderLine` through their validating constructors
(`OrderLine(product=Product(...), ...)` in the source, which can raise),
appends the merged line, removes the old one, and adds the incoming line's
`product_count * price` to `overall_price`; otherwise it appends the incoming
line and adds the same amount. -/
def Order.add_order_line (o : Order) (line : OrderLine) :
    Except (List String) Order :=
  match findLine? o.order_lines line.product.product_number with
  | some existing => do
    let p ← Product.mk? existing.product.product_number existing.product.price
    let merged ← OrderLine.mk? p (existing.product_count + line.product_count)
    .ok { order_lines :=
            eraseLine o.order_lines line.product.product_number ++ [merged],
          overall_price :=
            o.overall_price + line.product_count * line.product.price }
  | none =>
    .ok { order_lines := o.order_lines ++ [line],
          overall_price :=
            o.overall_price + line.product_count * line.product.price }

/-- Method `Order.remove_order_line`: drop the first line matching
`product_number` and subtract its `product_count * price`; silently return
the order unchanged when no line matches. It performs no construction, so it
never raises. -/
def Order.remove_order_line (o : Order) (product_number : Int) : Order :=
  match findLine? o.order_lines product_number with
  | some existing =>
    { order_lines := eraseLine o.order_lines product_number,
      overall_price :=
        o.overall_price - existing.product_count * existing.product.price }
  | none => o

/-- One call against the aggregate's mutation API. -/
inductive Op where
  | add : OrderLine → Op
  | remove : Int → Op
deriving DecidableEq

/-- Execute one call. -/
def Order.apply (o : Order) : Op → Except (List String) Order
  | .add line => o.add_order_line line
  | .remove n => .ok (o.remove_order_line n)

/-- Execute a sequence of calls, stopping at the first raised error. -/
def Order.run (o : Order) : List Op → Except (List String) Order
  | [] => .ok o
  | op :: ops =>
    match o.apply op with
    | .ok o2 => Order.run o2 ops
    | .error e => .error e

/-- The spec's derived-total formula:
Σ(`line.product_count * line.product.price`) over the order lines. -/
def sumPrice (lines : List OrderLine) : Int :=
  (lines.map (fun l => l.product_count * l.product.price)).sum

/-- A `Product` whose fields satisfy the construction validators. -/
def Product.Valid (p : Product) : Prop :=
  0 ≤ p.product_number ∧ p.product_number ≤ 999999 ∧ 1 ≤ p.price

/-- An `OrderLine` whose fields satisfy the construction validators. -/
def OrderLine.Valid (l : OrderLine) : Prop :=
  l.product.Valid ∧ 1 ≤ l.product_count

/-- An order state all of whose lines are validly constructed. -/
def Order.Valid (o : Order) : Prop :=
  ∀ l ∈ o.order_lines, l.Valid

/-- A call whose argument was validly constructed (`remove_order_line`
accepts any integer). -/
def Op.Valid : Op → Prop
  | .add line => line.Valid
  | .remove _ => True

instance (p : Product) : Decidable p.Valid := by
  unfold Product.Valid; infer_instance

instance (l : OrderLine) : Decidable l.Valid := by
  unfold OrderLine.Valid; infer_instance

instance (o : Order) : Decidable o.Valid := by
  unfold Order.Valid; infer_instance

instance (op : Op) : Decidable op.Valid := by
  cases op <;> (unfold Op.Valid; infer_instance)

/-- Product numbers of the lines, in order. -/
def linePns (lines : List OrderLine) : List Int :=
  lines.map (fun l => l.product.product_number)

/-- Modelled from the spec: the enforcement of `ValueObject.Config.frozen =
True` is performed by the pydantic library, whose code is not part of this
repository (only the `frozen = True` declaration in `ValueObject.Config`
is). Per the spec, assigning to a field of a constructed value object
"fails with an immutability error; the object's observable state never
changes across its lifetime": attempted assignment to `product_count`
returns the error outcome paired with the untouched order line. -/
def OrderLine.set_product_count (line : OrderLine) (_value : Int) :
    Except String Unit × OrderLine :=
  (.error "\x22OrderLine\x22 is immutable and does not support item assignment",
    line)

/-- Modelled from the spec: the same frozen-field enforcement for the
`product` field of `OrderLine`. -/
def OrderLine.set_product (line : OrderLine) (_value : Product) :
    Except String Unit × OrderLine :=
  (.error "\x22OrderLine\x22 is immutable and does not support item assignment",
    line)

/-- Modelled from the spec: `Product` is an `Entity` without a frozen
config, and the spec makes `Product.price` externally mutable ("Price of
product can change over time", "`Product.price` is externally mutable");
pydantic v1 permits the assignment and replaces the field value, as the
notebook demonstrates with `first_product.price = 2`. -/
def Product.set_price (p : Product) (value : Int) : Product :=
  { p with price := value }

/-- Modelled from the source's absence of an equality override together
with the behaviour of the pydantic library: `Product` declares no `__eq__`,
so comparing two `Product`s uses pydantic v1 `BaseModel.__eq__` — library
code outside this repository — which compares the models field by field.
The spec's own design note relies on this structural value-equality when it
describes `add_order_line` as removing the old line "by value-equality". -/
def Product.eq (a b : Product) : Bool :=
  a.product_number == b.product_number && a.price == b.price

/-- Constructing a `Product` succeeds exactly when both validators pass. -/
theorem product_mk_isOk_iff (a b : Int) :
    (Product.mk? a b).isOk = true ↔ (0 ≤ a ∧ a ≤ 999999 ∧ 1 ≤ b) := by
  by_cases h1 : a < 0 ∨ a > 999999 <;> by_cases h2 : b < 1 <;>
    simp [Product.mk?, Product.validate_product_number,
      Product.validate_price, h1, h2, errorsOf, Except.isOk, Except.toBool] <;>
    omega

/-- A successfully constructed `Product` carries exactly the given fields. -/
theorem product_mk_eq_of_ok (a b : Int) (p : Product)
    (h : Product.mk? a b = .ok p) : p = ⟨a, b⟩ := by
  by_cases h1 : a < 0 ∨ a > 999999 <;> by_cases h2 : b < 1 <;>
    simp [Product.mk?, Product.validate_product_number,
      Product.validate_price, h1, h2, errorsOf] at h <;>
    simp [← h]

/-- In-range fields construct successfully. -/
theorem product_mk_ok_of_valid (a b : Int) (h0 : 0 ≤ a) (h1 : a ≤ 999999)
    (h2 : 1 ≤ b) : Product.mk? a b = .ok ⟨a, b⟩ := by
  have ha : ¬(a < 0 ∨ a > 999999) := by omega
  have hb : ¬(b < 1) := by omega
  simp [Product.mk?, Product.validate_product_number,
    Product.validate_price, ha, hb]

/-- Constructing an `OrderLine` succeeds exactly when the count validates. -/
theorem orderline_mk_isOk_iff (pr : Product) (c : Int) :
    (OrderLine.mk? pr c).isOk = true ↔ 1 ≤ c := by
  by_cases h : c ≤ 0 <;>
    simp [OrderLine.mk?, OrderLine.validate_product_count, h,
      Except.isOk, Except.toBool] <;>
    omega

/-- A successfully constructed `OrderLine` carries exactly the given fields. -/
theorem orderline_mk_eq_of_ok (pr : Product) (c : Int) (l : OrderLine)
    (h : OrderLine.mk? pr c = .ok l) : l = ⟨pr, c⟩ := by
  by_cases hc : c ≤ 0 <;>
    simp [OrderLine.mk?, OrderLine.validate_product_count, hc] at h <;>
    simp [← h]

/-- A positive count constructs successfully. -/
theorem orderline_mk_ok_of_valid (pr : Product) (c : Int) (h : 1 ≤ c) :
    OrderLine.mk? pr c = .ok ⟨pr, c⟩ := by
  have hc : ¬(c ≤ 0) := by omega
  simp [OrderLine.mk?, OrderLine.validate_product_count, hc]

/-- The scan finds nothing exactly when no line matches. -/
theorem findLine?_eq_none (lines : List OrderLine) (n : Int) :
    findLine? lines n = none ↔ ∀ l ∈ lines, l.product.product_number ≠ n := by
  unfold findLine?
  rw [List.find?_eq_none]
  simp

/-- A found line is a member of the list. -/
theorem findLine?_some_mem (lines : List OrderLine) (n : Int)
    (ex : OrderLine) (h : findLine? lines n = some ex) : ex ∈ lines :=
  List.mem_of_find?_eq_some h

/-- A found line matches the requested product number. -/
theorem findLine?_some_pn (lines : List OrderLine) (n : Int)
    (ex : OrderLine) (h : findLine? lines n = some ex) :
    ex.product.product_number = n := by
  have := List.find?_some h
  simpa using this

/-- With pairwise-distinct product numbers, the scan finds exactly the member
carrying the requested product number. -/
theorem findLine?_of_nodup_mem (lines : List OrderLine) (n : Int)
    (ex : OrderLine) (hnd : (linePns lines).Nodup) (hmem : ex ∈ lines)
    (hpn : ex.product.product_number = n) : findLine? lines n = some ex := by
  induction lines with
  | nil => cases hmem
  | cons l ls ih =>
    unfold linePns at hnd
    simp only [List.map_cons, List.nodup_cons] at hnd
    rcases List.mem_cons.mp hmem with hl | hl
    · subst hl
      unfold findLine?
      simp [List.find?_cons, hpn]
    · have hne : l.product.product_number ≠ n := by
        intro he
        exact hnd.1 (he ▸ hpn ▸ List.mem_map_of_mem _ hl)
      unfold findLine?
      rw [List.find?_cons]
      split <;> rename_i hb
      · exact absurd (eq_of_beq hb) hne
      · exact ih hnd.2 hl

/-- Erasure only ever drops elements. -/
theorem eraseLine_sublist (lines : List OrderLine) (n : Int) :
    (eraseLine lines n).Sublist lines := by
  induction lines with
  | nil => simp [eraseLine]
  | cons l ls ih =>
    unfold eraseLine
    split
    · exact List.sublist_cons_self l ls
    · exact List.Sublist.cons₂ l ih

/-- When no line matches, erasure is the identity. -/
theorem eraseLine_of_none (lines : List OrderLine) (n : Int)
    (h : findLine? lines n = none) : eraseLine lines n = lines := by
  induction lines with
  | nil => rfl
  | cons l ls ih =>
    rw [findLine?_eq_none] at h
    unfold eraseLine
    split <;> rename_i hb
    · exact absurd (eq_of_beq hb) (h l (List.mem_cons_self l ls))
    · rw [ih]
      rw [findLine?_eq_none]
      exact fun x hx => h x (List.mem_cons_of_mem l hx)

/-- Erasure removes at most one element. -/
theorem length_le_eraseLine (lines : List OrderLine) (n : Int) :
    lines.length ≤ (eraseLine lines n).length + 1 := by
  induction lines with
  | nil => simp [eraseLine]
  | cons l ls ih =>
    unfold eraseLine
    split <;> simp <;> omega

/-- Lines with a different product number are untouched by erasure, in
content and in relative order. -/
theorem filter_eraseLine (lines : List OrderLine) (n : Int) :
    (eraseLine lines n).filter (fun l => !(l.product.product_number == n)) =
      lines.filter (fun l => !(l.product.product_number == n)) := by
  induction lines with
  | nil => rfl
  | cons l ls ih =>
    unfold eraseLine
    split <;> rename_i hb
    · rw [List.filter_cons]
      simp [hb]
    · rw [List.filter_cons, List.filter_cons, ih]

/-- After erasing the (unique, by `Nodup`) line with product number `n`, no
line with product number `n` remains. -/
theorem pn_not_mem_eraseLine (lines : List OrderLine) (n : Int)
    (hnd : (linePns lines).Nodup) : n ∉ linePns (eraseLine lines n) := by
  induction lines with
  | nil => simp [eraseLine, linePns]
  | cons l ls ih =>
    unfold linePns at hnd ⊢
    simp only [List.map_cons, List.nodup_cons] at hnd
    unfold eraseLine
    split <;> rename_i hb
    · have hl : l.product.product_number = n := by simpa using hb
      exact hl ▸ hnd.1
    · intro hmem
      simp only [List.map_cons, List.mem_cons] at hmem
      rcases hmem with hmem | hmem
      · exact hb (beq_iff_eq.mpr hmem.symm)
      · exact ih hnd.2 hmem

/-- Characterization of one successful `add_order_line` call: either the scan
found a line with the same product number — then the old line is erased, a
merged line carrying the existing product's number and price and the summed
count is appended, and `overall_price` grows by the incoming line's
`product_count * price` — or no line matched and the incoming line is
appended with the same price increment. -/
theorem add_order_line_cases (o : Order) (line : OrderLine) (o' : Order)
    (h : o.add_order_line line = .ok o') :
    (∃ ex, findLine? o.order_lines line.product.product_number = some ex ∧
      o'.order_lines =
        eraseLine o.order_lines line.product.product_number ++
          [⟨⟨ex.product.product_number, ex.product.price⟩,
            ex.product_count + line.product_count⟩] ∧
      o'.overall_price =
        o.overall_price + line.product_count * line.product.price)
    ∨ (findLine? o.order_lines line.product.product_number = none ∧
      o'.order_lines = o.order_lines ++ [line] ∧
      o'.overall_price =
        o.overall_price + line.product_count * line.product.price) := by
  unfold Order.add_order_line at h
  split at h <;> rename_i hfind
  · rename_i ex
    left
    refine ⟨ex, hfind, ?_⟩
    cases hp : Product.mk? ex.product.product_number ex.product.price with
    | error e =>
      rw [hp] at h
      simp [bind, Except.bind] at h
    | ok p =>
      rw [hp] at h
      simp only [bind, Except.bind] at h
      cases hm : OrderLine.mk? p (ex.product_count + line.product_count) with
      | error e =>
        rw [hm] at h
        simp at h
      | ok merged =>
        rw [hm] at h
        simp only [] at h
        have hpe : p = ⟨ex.product.product_number, ex.product.price⟩ :=
          product_mk_eq_of_ok _ _ _ hp
        have hme : merged = ⟨p, ex.product_count + line.product_count⟩ :=
          orderline_mk_eq_of_ok _ _ _ hm
        subst hme
        subst hpe
        injection h with h2
        subst h2
        exact ⟨rfl, rfl⟩
  · right
    cases h
    exact ⟨hfind, rfl, rfl⟩

/-- In every state, `remove_order_line` leaves exactly the erasure of the
first matching line (the whole list when nothing matches). -/
theorem remove_order_line_lines (o : Order) (n : Int) :
    (o.remove_order_line n).order_lines = eraseLine o.order_lines n := by
  unfold Order.remove_order_line
  split <;> rename_i hfind
  · rfl
  · exact (eraseLine_of_none o.order_lines n hfind).symm

/-- A successful `add_order_line` preserves distinctness of the product
numbers across the order lines. -/
theorem add_order_line_nodup (o : Order) (line : OrderLine) (o' : Order)
    (h : o.add_order_line line = .ok o')
    (hnd : (linePns o.order_lines).Nodup) :
    (linePns o'.order_lines).Nodup := by
  rcases add_order_line_cases o line o' h with
    ⟨ex, hfind, hlines, _⟩ | ⟨hfind, hlines, _⟩
  · rw [hlines]
    unfold linePns
    rw [List.map_append]
    have hsub :=
      (eraseLine_sublist o.order_lines line.product.product_number).map
        (fun l => l.product.product_number)
    have h1 : (linePns
        (eraseLine o.order_lines line.product.product_number)).Nodup :=
      hsub.nodup hnd
    have h2 : ex.product.product_number = line.product.product_number :=
      findLine?_some_pn _ _ _ hfind
    have h3 := pn_not_mem_eraseLine o.order_lines
      line.product.product_number hnd
    rw [List.nodup_append]
    refine ⟨h1, List.nodup_singleton _, ?_⟩
    intro a ha hb
    simp only [List.map_cons, List.map_nil, List.mem_singleton] at hb
    subst hb
    unfold linePns at h3
    exact h3 (h2 ▸ ha)
  · rw [hlines]
    unfold linePns
    rw [List.map_append, List.nodup_append]
    refine ⟨hnd, List.nodup_singleton _, ?_⟩
    intro a ha hb
    simp only [List.map_cons, List.map_nil, List.mem_singleton] at hb
    subst hb
    rw [findLine?_eq_none] at hfind
    obtain ⟨l, hl, hpn⟩ := List.mem_map.mp ha
    exact hfind l hl (hpn.trans rfl)

/-- `remove_order_line` preserves distinctness of the product numbers. -/
theorem remove_order_line_nodup (o : Order) (n : Int)
    (hnd : (linePns o.order_lines).Nodup) :
    (linePns (o.remove_order_line n).order_lines).Nodup := by
  rw [remove_order_line_lines]
  unfold linePns at hnd ⊢
  exact ((eraseLine_sublist o.order_lines n).map
    (fun l => l.product.product_number)).nodup hnd

/-- A successful `add_order_line` keeps every line validly constructed. -/
theorem add_order_line_valid (o : Order) (line : OrderLine) (o' : Order)
    (h : o.add_order_line line = .ok o') (ho : o.Valid) (hl : line.Valid) :
    o'.Valid := by
  rcases add_order_line_cases o line o' h with
    ⟨ex, hfind, hlines, _⟩ | ⟨hfind, hlines, _⟩
  · intro l hmem
    rw [hlines] at hmem
    rcases List.mem_append.mp hmem with hm | hm
    · exact ho l ((eraseLine_sublist _ _).subset hm)
    · have hex : ex.Valid := ho ex (findLine?_some_mem _ _ _ hfind)
      rw [List.mem_singleton] at hm
      subst hm
      refine ⟨hex.1, ?_⟩
      show (1 : Int) ≤ ex.product_count + line.product_count
      have h1 := hex.2
      have h2 := hl.2
      omega
  · intro l hmem
    rw [hlines] at hmem
    rcases List.mem_append.mp hmem with hm | hm
    · exact ho l hm
    · rw [List.mem_singleton] at hm
      subst hm
      exact hl

/-- Computation of the append path: when no line matches, `add_order_line`
returns the appended state. -/
theorem add_order_line_append (o : Order) (line : OrderLine)
    (hf : findLine? o.order_lines line.product.product_number = none) :
    o.add_order_line line = .ok
      { order_lines := o.order_lines ++ [line],
        overall_price :=
          o.overall_price + line.product_count * line.product.price } := by
  unfold Order.add_order_line
  rw [hf]

/-- Computation of the merge path: when the first matching line has in-range
fields and the summed count is positive, the internal reconstruction
validates and `add_order_line` returns the merged state. -/
theorem add_order_line_merge (o : Order) (line ex : OrderLine)
    (hf : findLine? o.order_lines line.product.product_number = some ex)
    (hpn : 0 ≤ ex.product.product_number)
    (hpn2 : ex.product.product_number ≤ 999999)
    (hpr : 1 ≤ ex.product.price)
    (hc : 1 ≤ ex.product_count + line.product_count) :
    o.add_order_line line = .ok
      { order_lines :=
          eraseLine o.order_lines line.product.product_number ++
            [⟨⟨ex.product.product_number, ex.product.price⟩,
              ex.product_count + line.product_count⟩],
        overall_price :=
          o.overall_price + line.product_count * line.product.price } := by
  unfold Order.add_order_line
  rw [hf]
  simp only [product_mk_ok_of_valid _ _ hpn hpn2 hpr, bind, Except.bind,
    orderline_mk_ok_of_valid _ _ hc]

/-- On a valid state, adding a valid line always succeeds: the merge path's
internal reconstruction of a `Product` and of an `OrderLine` with the summed
count always passes validation. -/
theorem add_order_line_ok_of_valid (o : Order) (line : OrderLine)
    (ho : o.Valid) (hl : line.Valid) :
    ∃ o', o.add_order_line line = .ok o' := by
  rcases hf : findLine? o.order_lines line.product.product_number with _ | ex
  · exact ⟨_, add_order_line_append o line hf⟩
  · have hex : OrderLine.Valid ex := ho ex (findLine?_some_mem _ _ _ hf)
    have hc : (1 : Int) ≤ ex.product_count + line.product_count := by
      have h1 := hex.2
      have h2 := hl.2
      omega
    exact ⟨_, add_order_line_merge o line ex hf hex.1.1 hex.1.2.1
      hex.1.2.2 hc⟩

/-- `remove_order_line` keeps every line validly constructed. -/
theorem remove_order_line_valid (o : Order) (n : Int) (ho : o.Valid) :
    (o.remove_order_line n).Valid := by
  intro l hmem
  rw [remove_order_line_lines] at hmem
  exact ho l ((eraseLine_sublist _ _).subset hmem)

/-- Along any sequence of valid calls from a valid state, execution succeeds
and the final state is valid again. -/
theorem run_ok_of_valid (ops : List Op) (o : Order) (ho : o.Valid)
    (hops : ∀ op ∈ ops, op.Valid) :
    ∃ o', o.run ops = .ok o' ∧ o'.Valid := by
  induction ops generalizing o with
  | nil => exact ⟨o, rfl, ho⟩
  | cons op ops ih =>
    cases op with
    | add line =>
      have hline : line.Valid := hops _ (List.mem_cons_self _ _)
      obtain ⟨o2, h2⟩ := add_order_line_ok_of_valid o line ho hline
      have ho2 := add_order_line_valid o line o2 h2 ho hline
      obtain ⟨o', h', hv⟩ :=
        ih o2 ho2 (fun op hop => hops op (List.mem_cons_of_mem _ hop))
      refine ⟨o', ?_, hv⟩
      unfold Order.run Order.apply
      simp only [h2]
      exact h'
    | remove n =>
      have ho2 := remove_order_line_valid o n ho
      obtain ⟨o', h', hv⟩ :=
        ih _ ho2 (fun op hop => hops op (List.mem_cons_of_mem _ hop))
      refine ⟨o', ?_, hv⟩
      unfold Order.run Order.apply
      exact h'

/-- A successful execution preserves distinctness of product numbers. -/
theorem run_nodup (ops : List Op) (o o' : Order) (h : o.run ops = .ok o')
    (hnd : (linePns o.order_lines).Nodup) :
    (linePns o'.order_lines).Nodup := by
  induction ops generalizing o with
  | nil =>
    injection h with h2
    subst h2
    exact hnd
  | cons op ops ih =>
    unfold Order.run at h
    cases ha : o.apply op with
    | error e =>
      rw [ha] at h
      simp at h
    | ok o2 =>
      rw [ha] at h
      have hnd2 : (linePns o2.order_lines).Nodup := by
        cases op with
        | add line => exact add_order_line_nodup o line o2 ha hnd
        | remove n =>
          have he : o2 = o.remove_order_line n := by
            injection ha with h3
            exact h3.symm
          rw [he]
          exact remove_order_line_nodup o n hnd
      exact ih o2 h hnd2

/-- C1: the claim that after any sequence of validated
`add_order_line`/`remove_order_line` calls — explicitly including adds whose
product shares a `product_number` with an existing line but carries a
different price — `overall_price` equals Σ(`product_count * price`) over
`order_lines` is false on the code. Adding the validly constructed lines
⟨⟨111111, 100⟩, 1⟩ and then ⟨⟨111111, 999⟩, 1⟩ to an empty order stores the
merged line at the old unit price 100 but increments `overall_price` by the
new price 999, ending at 1099 while the stored lines sum to 200 — contrary
to the `Order` docstring's own promise that `overall_price` is kept
consistent with the sum over all order lines. -/
theorem C1_sum_invariant_violated :
    (⟨⟨111111, 100⟩, 1⟩ : OrderLine).Valid
    ∧ (⟨⟨111111, 999⟩, 1⟩ : OrderLine).Valid
    ∧ Order.empty.run
        [Op.add ⟨⟨111111, 100⟩, 1⟩, Op.add ⟨⟨111111, 999⟩, 1⟩] =
      .ok { order_lines := [⟨⟨111111, 100⟩, 2⟩], overall_price := 1099 }
    ∧ sumPrice [⟨⟨111111, 100⟩, 2⟩] = 200
    ∧ ¬((1099 : Int) = 200) :=
  ⟨by decide, by decide, rfl, rfl, by decide⟩

/-- C2: starting from an empty order, every successful execution leaves the
order lines with pairwise-distinct product numbers; and adding two lines
whose products carry equal product numbers leaves exactly one line for that
product, whose count is the sum of the two added counts. -/
theorem C2_merge_uniqueness :
    (∀ ops o', Order.empty.run ops = .ok o' →
      (linePns o'.order_lines).Nodup)
    ∧ (∀ l1 l2 o1 o',
        l1.product.product_number = l2.product.product_number →
        Order.empty.add_order_line l1 = .ok o1 →
        o1.add_order_line l2 = .ok o' →
        o'.order_lines =
          [⟨⟨l1.product.product_number, l1.product.price⟩,
            l1.product_count + l2.product_count⟩]) := by
  constructor
  · intro ops o' h
    exact run_nodup ops Order.empty o' h (by simp [linePns, Order.empty])
  · intro l1 l2 o1 o' hpn h1 h2
    rcases add_order_line_cases Order.empty l1 o1 h1 with
      ⟨ex, hfind, _, _⟩ | ⟨_, hlines1, _⟩
    · simp [findLine?, Order.empty] at hfind
    · have hl1 : o1.order_lines = [l1] := by simpa using hlines1
      have hf2 : findLine? o1.order_lines l2.product.product_number =
          some l1 := by
        rw [hl1]
        unfold findLine?
        simp [List.find?, hpn]
      rcases add_order_line_cases o1 l2 o' h2 with
        ⟨ex, hfind, hlines2, _⟩ | ⟨hfind, _, _⟩
      · rw [hf2] at hfind
        injection hfind with hex
        subst hex
        rw [hlines2, hl1]
        unfold eraseLine
        simp [hpn]
      · rw [hf2] at hfind
        simp at hfind

/-- C2 witness: concrete instances of both conjuncts. -/
theorem C2_witness :
    (linePns ({ order_lines := [⟨⟨5, 2⟩, 1⟩], overall_price := 2 } :
      Order).order_lines).Nodup
    ∧ ({ order_lines := [⟨⟨7, 3⟩, 3⟩], overall_price := 9 } :
        Order).order_lines = [⟨⟨7, 3⟩, 1 + 2⟩] :=
  ⟨C2_merge_uniqueness.1 [Op.add ⟨⟨5, 2⟩, 1⟩] _ rfl,
   C2_merge_uniqueness.2 ⟨⟨7, 3⟩, 1⟩ ⟨⟨7, 3⟩, 2⟩
     { order_lines := [⟨⟨7, 3⟩, 1⟩], overall_price := 3 } _ rfl rfl rfl⟩

/-- C3: on a state with pairwise-distinct product numbers containing the
line ⟨⟨n, p⟩, c⟩, a successful add of ⟨⟨n, q⟩, k⟩ replaces that entry by
⟨⟨n, p⟩, c + k⟩ — keeping the existing line's price p — while incrementing
`overall_price` by exactly k * q, the added line's count times the added
line's price. -/
theorem C3_merge_keeps_price_increments_by_added (o : Order)
    (n p c q k : Int) (o' : Order)
    (hnd : (linePns o.order_lines).Nodup)
    (hmem : (⟨⟨n, p⟩, c⟩ : OrderLine) ∈ o.order_lines)
    (h : o.add_order_line ⟨⟨n, q⟩, k⟩ = .ok o') :
    o'.order_lines = eraseLine o.order_lines n ++ [⟨⟨n, p⟩, c + k⟩]
    ∧ o'.overall_price = o.overall_price + k * q := by
  have hf : findLine? o.order_lines n = some ⟨⟨n, p⟩, c⟩ :=
    findLine?_of_nodup_mem o.order_lines n ⟨⟨n, p⟩, c⟩ hnd hmem rfl
  rcases add_order_line_cases o ⟨⟨n, q⟩, k⟩ o' h with
    ⟨ex, hfind, hlines, hprice⟩ | ⟨hfind, _, _⟩
  · have hfind2 : findLine? o.order_lines n = some ex := hfind
    have hex : (⟨⟨n, p⟩, c⟩ : OrderLine) = ex := by
      injection hf.symm.trans hfind2 with hx
    subst hex
    exact ⟨hlines, hprice⟩
  · have hfind2 : findLine? o.order_lines n = none := hfind
    rw [hfind2] at hf
    exact Option.noConfusion hf

/-- C3 witness: merging ⟨⟨4, 7⟩, 3⟩ into a state holding ⟨⟨4, 10⟩, 2⟩. -/
theorem C3_witness :
    ({ order_lines := [⟨⟨4, 10⟩, 5⟩], overall_price := 41 } :
        Order).order_lines =
      eraseLine [⟨⟨4, 10⟩, 2⟩] 4 ++ [⟨⟨4, 10⟩, 2 + 3⟩]
    ∧ ({ order_lines := [⟨⟨4, 10⟩, 5⟩], overall_price := 41 } :
        Order).overall_price = 20 + 3 * 7 :=
  C3_merge_keeps_price_increments_by_added
    { order_lines := [⟨⟨4, 10⟩, 2⟩], overall_price := 20 } 4 10 2 7 3
    { order_lines := [⟨⟨4, 10⟩, 5⟩], overall_price := 41 }
    (by decide) (by decide) rfl

/-- C4: constructing a `Product` succeeds exactly when `product_number` lies
in [0, 999999] and `price` is at least 1; constructing an `OrderLine`
succeeds exactly when `product_count` is at least 1; and every failing
construction returns (never a partial instance) a validation error whose
message names the offending value and the allowed bound. -/
theorem C4_construction_validation :
    (∀ pn price, (Product.mk? pn price).isOk = true ↔
      (0 ≤ pn ∧ pn ≤ 999999 ∧ 1 ≤ price))
    ∧ (∀ product cnt,
        (OrderLine.mk? product cnt).isOk = true ↔ 1 ≤ cnt)
    ∧ (∀ pn price, (pn < 0 ∨ pn > 999999) → ∃ msgs,
        Product.mk? pn price = .error msgs ∧
        ("product_number is " ++ toString pn ++
          " but must be between 0 and 999999.") ∈ msgs)
    ∧ (∀ pn price, price < 1 → ∃ msgs,
        Product.mk? pn price = .error msgs ∧
        ("price is " ++ toString price ++ " but must be at least 1.") ∈ msgs)
    ∧ (∀ product cnt, cnt ≤ 0 →
        OrderLine.mk? product cnt = .error
          ["product_count is " ++ toString cnt ++
            " but must be greater than 0."]) := by
  refine ⟨product_mk_isOk_iff, orderline_mk_isOk_iff, ?_, ?_, ?_⟩
  · intro pn price hbad
    have hc : Product.mk? pn price = .error
        (("product_number is " ++ toString pn ++
          " but must be between 0 and 999999.") ::
          errorsOf (Product.validate_price price)) := by
      simp [Product.mk?, Product.validate_product_number, hbad, errorsOf]
    exact ⟨_, hc, List.mem_cons_self _ _⟩
  · intro pn price hbad
    by_cases h1 : pn < 0 ∨ pn > 999999
    · have hc : Product.mk? pn price = .error
          [("product_number is " ++ toString pn ++
            " but must be between 0 and 999999."),
           ("price is " ++ toString price ++ " but must be at least 1.")] := by
        simp [Product.mk?, Product.validate_product_number,
          Product.validate_price, h1, hbad, errorsOf]
      exact ⟨_, hc, by simp⟩
    · have hc : Product.mk? pn price = .error
          [("price is " ++ toString price ++ " but must be at least 1.")] := by
        simp [Product.mk?, Product.validate_product_number,
          Product.validate_price, h1, hbad, errorsOf]
      exact ⟨_, hc, by simp⟩
  · intro product cnt hbad
    simp [OrderLine.mk?, OrderLine.validate_product_count, hbad]

/-- C4 witness: concrete successful and failing constructions. -/
theorem C4_witness :
    (Product.mk? 123456 100).isOk = true
    ∧ (OrderLine.mk? ⟨123456, 100⟩ 1).isOk = true
    ∧ (∃ msgs, Product.mk? (-1) 5 = .error msgs ∧
        ("product_number is " ++ toString (-1 : Int) ++
          " but must be between 0 and 999999.") ∈ msgs)
    ∧ (∃ msgs, Product.mk? 5 0 = .error msgs ∧
        ("price is " ++ toString (0 : Int) ++
          " but must be at least 1.") ∈ msgs)
    ∧ OrderLine.mk? ⟨5, 5⟩ 0 = .error
        ["product_count is " ++ toString (0 : Int) ++
          " but must be greater than 0."] :=
  ⟨(C4_construction_validation.1 123456 100).mpr (by decide),
   (C4_construction_validation.2.1 ⟨123456, 100⟩ 1).mpr (by decide),
   C4_construction_validation.2.2.1 (-1) 5 (by decide),
   C4_construction_validation.2.2.2.1 5 0 (by decide),
   C4_construction_validation.2.2.2.2 ⟨5, 5⟩ 0 (by decide)⟩

/-- C5: assigning to `product_count` or `product` of a constructed
`OrderLine` fails with the immutability error and leaves the line's
observable state unchanged, while the referenced `Product`'s own `price`
field can still be mutated through the `Product`. -/
theorem C5_orderline_immutable :
    (∀ (line : OrderLine) (v : Int),
      (line.set_product_count v).1.isOk = false
      ∧ (line.set_product_count v).2 = line)
    ∧ (∀ (line : OrderLine) (p : Product),
      (line.set_product p).1.isOk = false
      ∧ (line.set_product p).2 = line)
    ∧ (∀ (p : Product) (v : Int),
      (p.set_price v).price = v
      ∧ (p.set_price v).product_number = p.product_number) :=
  ⟨fun _ _ => ⟨rfl, rfl⟩, fun _ _ => ⟨rfl, rfl⟩, fun _ _ => ⟨rfl, rfl⟩⟩

/-- C6: `remove_order_line n` removes the (first) line whose product carries
product number `n` and decrements `overall_price` by exactly that line's
`product_count * price`; when no line matches, the order is returned
completely unchanged — a silent no-op, and the function is total, so no
error is ever raised. -/
theorem C6_remove_found_or_noop (o : Order) (n : Int) :
    (∀ ex, findLine? o.order_lines n = some ex →
      (o.remove_order_line n).order_lines = eraseLine o.order_lines n
      ∧ (o.remove_order_line n).overall_price =
          o.overall_price - ex.product_count * ex.product.price)
    ∧ (findLine? o.order_lines n = none → o.remove_order_line n = o) := by
  constructor
  · intro ex hf
    unfold Order.remove_order_line
    rw [hf]
    exact ⟨rfl, rfl⟩
  · intro hf
    unfold Order.remove_order_line
    rw [hf]

/-- C6 witness: removal of a present and of an absent product number. -/
theorem C6_witness :
    (({ order_lines := [⟨⟨3, 5⟩, 2⟩], overall_price := 10 } :
        Order).remove_order_line 3).order_lines =
      eraseLine [⟨⟨3, 5⟩, 2⟩] 3
    ∧ (({ order_lines := [⟨⟨3, 5⟩, 2⟩], overall_price := 10 } :
        Order).remove_order_line 3).overall_price = 10 - 2 * 5
    ∧ ({ order_lines := [⟨⟨3, 5⟩, 2⟩], overall_price := 10 } :
        Order).remove_order_line 4 =
      { order_lines := [⟨⟨3, 5⟩, 2⟩], overall_price := 10 } :=
  ⟨((C6_remove_found_or_noop
      { order_lines := [⟨⟨3, 5⟩, 2⟩], overall_price := 10 } 3).1
      ⟨⟨3, 5⟩, 2⟩ rfl).1,
   ((C6_remove_found_or_noop
      { order_lines := [⟨⟨3, 5⟩, 2⟩], overall_price := 10 } 3).1
      ⟨⟨3, 5⟩, 2⟩ rfl).2,
   (C6_remove_found_or_noop
      { order_lines := [⟨⟨3, 5⟩, 2⟩], overall_price := 10 } 4).2 rfl⟩

/-- C7: starting from the empty order, executing any sequence of
`add_order_line` calls with validly constructed lines and
`remove_order_line` calls with arbitrary integers never raises: in
particular the merge path's internal reconstruction of a `Product` and an
`OrderLine` with the summed count always passes validation. -/
theorem C7_valid_calls_never_fail (ops : List Op)
    (hops : ∀ op ∈ ops, op.Valid) :
    (Order.empty.run ops).isOk = true := by
  obtain ⟨o', h, _⟩ := run_ok_of_valid ops Order.empty
    (by intro l hl; simp [Order.empty] at hl) hops
  rw [h]
  rfl

/-- C7 witness: a concrete sequence of valid adds and arbitrary removes. -/
theorem C7_witness :
    (Order.empty.run [Op.add ⟨⟨1, 2⟩, 3⟩, Op.remove 9,
      Op.add ⟨⟨1, 2⟩, 1⟩, Op.remove 1]).isOk = true :=
  C7_valid_calls_never_fail
    [Op.add ⟨⟨1, 2⟩, 3⟩, Op.remove 9, Op.add ⟨⟨1, 2⟩, 1⟩, Op.remove 1]
    (by decide)

/-- C8: the spec's end-to-end scenario, evaluated on the code: two adds
reach `overall_price = 500`; a third add merges into the 654321 line,
leaving exactly one line for that product with count 3 and
`overall_price = 700`; removing 123456 leaves one line and
`overall_price = 600`. -/
theorem C8_scenario :
    Order.empty.run
        [Op.add ⟨⟨123456, 100⟩, 1⟩, Op.add ⟨⟨654321, 200⟩, 2⟩] =
      .ok { order_lines := [⟨⟨123456, 100⟩, 1⟩, ⟨⟨654321, 200⟩, 2⟩],
            overall_price := 500 }
    ∧ Order.empty.run
        [Op.add ⟨⟨123456, 100⟩, 1⟩, Op.add ⟨⟨654321, 200⟩, 2⟩,
          Op.add ⟨⟨654321, 200⟩, 1⟩] =
      .ok { order_lines := [⟨⟨123456, 100⟩, 1⟩, ⟨⟨654321, 200⟩, 3⟩],
            overall_price := 700 }
    ∧ ([⟨⟨123456, 100⟩, 1⟩, ⟨⟨654321, 200⟩, 3⟩] : List OrderLine).countP
        (fun l => l.product.product_number == 654321) = 1
    ∧ Order.empty.run
        [Op.add ⟨⟨123456, 100⟩, 1⟩, Op.add ⟨⟨654321, 200⟩, 2⟩,
          Op.add ⟨⟨654321, 200⟩, 1⟩, Op.remove 123456] =
      .ok { order_lines := [⟨⟨654321, 200⟩, 3⟩], overall_price := 600 } :=
  ⟨rfl, rfl, rfl, rfl⟩

/-- C9 counterexample: two constructible `Product`s with equal
`product_number` 123456 but prices 100 and 200 are not equal under the
program's equality, refuting the claim that equality is keyed on
`product_number` alone. -/
theorem C9_counterexample :
    (Product.mk? 123456 100).isOk = true
    ∧ (Product.mk? 123456 200).isOk = true
    ∧ Product.eq ⟨123456, 100⟩ ⟨123456, 200⟩ = false :=
  ⟨rfl, rfl, rfl⟩

/-- C9 amended: the program's equality on `Product` is structural over all
declared fields — two `Product`s are equal exactly when both
`product_number` and `price` agree; no identity-keyed override exists. -/
theorem C9_product_equality_structural (a b : Product) :
    Product.eq a b = true ↔
      (a.product_number = b.product_number ∧ a.price = b.price) := by
  unfold Product.eq
  simp

/-- C10: one mutation call touches at most one existing entry. Every line
whose product number differs from the added or removed one survives
unchanged and in relative order (the `filter` equalities); all lines except
possibly the first match stay present in order (the `Sublist`); and at most
one entry is dropped (the length bound). -/
theorem C10_frame (o : Order) (line : OrderLine) (o' : Order) (n : Int) :
    (o.add_order_line line = .ok o' →
      o'.order_lines.filter
          (fun l => !(l.product.product_number ==
            line.product.product_number)) =
        o.order_lines.filter
          (fun l => !(l.product.product_number ==
            line.product.product_number))
      ∧ (eraseLine o.order_lines line.product.product_number).Sublist
          o'.order_lines
      ∧ o.order_lines.length ≤
          (eraseLine o.order_lines line.product.product_number).length + 1)
    ∧ ((o.remove_order_line n).order_lines.filter
          (fun l => !(l.product.product_number == n)) =
        o.order_lines.filter (fun l => !(l.product.product_number == n))
      ∧ (o.remove_order_line n).order_lines = eraseLine o.order_lines n
      ∧ o.order_lines.length ≤ (eraseLine o.order_lines n).length + 1) := by
  constructor
  · intro h
    rcases add_order_line_cases o line o' h with
      ⟨ex, hfind, hlines, _⟩ | ⟨hfind, hlines, _⟩
    · have hpn : ex.product.product_number = line.product.product_number :=
        findLine?_some_pn _ _ _ hfind
      refine ⟨?_, ?_, length_le_eraseLine _ _⟩
      · rw [hlines]
        simp [List.filter_append, hpn, filter_eraseLine]
      · rw [hlines]
        exact List.sublist_append_left _ _
    · refine ⟨?_, ?_, length_le_eraseLine _ _⟩
      · rw [hlines]
        simp [List.filter_append]
      · rw [hlines, eraseLine_of_none _ _ hfind]
        exact List.sublist_append_left _ _
  · refine ⟨?_, remove_order_line_lines o n, length_le_eraseLine _ _⟩
    rw [remove_order_line_lines]
    exact filter_eraseLine o.order_lines n

/-- C10 witness: adding a line with a fresh product number and removing a
present one on a concrete state. -/
theorem C10_witness :
    (([⟨⟨1, 5⟩, 1⟩, ⟨⟨2, 4⟩, 1⟩] : List OrderLine).filter
        (fun l => !(l.product.product_number == 2)) =
      ([⟨⟨1, 5⟩, 1⟩] : List OrderLine).filter
        (fun l => !(l.product.product_number == 2))
      ∧ (eraseLine [⟨⟨1, 5⟩, 1⟩] 2).Sublist [⟨⟨1, 5⟩, 1⟩, ⟨⟨2, 4⟩, 1⟩]
      ∧ ([⟨⟨1, 5⟩, 1⟩] : List OrderLine).length ≤
          (eraseLine [⟨⟨1, 5⟩, 1⟩] 2).length + 1)
    ∧ ((({ order_lines := [⟨⟨1, 5⟩, 1⟩], overall_price := 5 } :
          Order).remove_order_line 1).order_lines.filter
          (fun l => !(l.product.product_number == 1)) =
        ([⟨⟨1, 5⟩, 1⟩] : List OrderLine).filter
          (fun l => !(l.product.product_number == 1))
      ∧ (({ order_lines := [⟨⟨1, 5⟩, 1⟩], overall_price := 5 } :
          Order).remove_order_line 1).order_lines =
        eraseLine [⟨⟨1, 5⟩, 1⟩] 1
      ∧ ([⟨⟨1, 5⟩, 1⟩] : List OrderLine).length ≤
          (eraseLine [⟨⟨1, 5⟩, 1⟩] 1).length + 1) :=
  ⟨(C10_frame { order_lines := [⟨⟨1, 5⟩, 1⟩], overall_price := 5 }
      ⟨⟨2, 4⟩, 1⟩
      { order_lines := [⟨⟨1, 5⟩, 1⟩, ⟨⟨2, 4⟩, 1⟩], overall_price := 9 }
      1).1 rfl,
   (C10_frame { order_lines := [⟨⟨1, 5⟩, 1⟩], overall_price := 5 }
      ⟨⟨2, 4⟩, 1⟩
      { order_lines := [⟨⟨1, 5⟩, 1⟩, ⟨⟨2, 4⟩, 1⟩], overall_price := 9 }
      1).2⟩
